import Mathlib

set_option maxRecDepth 100000

/-!
Verification development for the message-intake and conversation-state
subsystem of the intelligence-agent chat bot.  The definitions below are a
shallow embedding of `src/bot/feishu_ws.py` (deduplication in
`FeishuBot._handle_message`, the worker pipeline
`FeishuBot._process_message_worker`, reply construction `FeishuBot._reply_text`)
and `src/bot/conversation_memory.py` (`ConversationContext`,
`ConversationMemory`).  Python floats used only as timestamps are modelled as
rationals; Python `str` operations used by the code (`strip`, `replace`,
`split`, `startswith`, `len`) are given executable reference definitions with
Python's semantics; fallible code is modelled with explicit outcome
constructors.  Collaborator network calls (LLM, image download, GitHub search)
are parameters of the model (`Collab`).
-/

/-! ## Python string primitives -/

/-- Python `str.strip()` whitespace set: space, tab, LF, CR, vertical tab, form feed. -/
def isPySpace (c : Char) : Bool :=
  c == ' ' || c == '\t' || c == '\n' || c == '\r' || c == '\x0b' || c == '\x0c'

/-- Character-list version of Python `str.strip()`. -/
def pyStripList (cs : List Char) : List Char :=
  ((cs.dropWhile isPySpace).reverse.dropWhile isPySpace).reverse

/-- Python `str.strip()`. -/
def pyStrip (s : String) : String := String.mk (pyStripList s.data)

/-- Python `s.replace(pat, rep)` with an empty pattern: the replacement is
    inserted before every character and at the end. -/
def pyReplaceEmptyPat (r : List Char) : List Char → List Char
  | [] => r
  | c :: cs => r ++ c :: pyReplaceEmptyPat r cs

/-- Fuelled worker for Python `str.replace` with a non-empty pattern `p`:
    left-to-right, non-overlapping.  Each step consumes at least one character,
    so fuel `cs.length` suffices. -/
def pyReplaceFuel (p r : List Char) : Nat → List Char → List Char
  | 0, cs => cs
  | _ + 1, [] => []
  | fuel + 1, c :: cs =>
    if p.isPrefixOf (c :: cs) then
      r ++ pyReplaceFuel p r fuel (List.drop (p.length - 1) cs)
    else
      c :: pyReplaceFuel p r fuel cs

/-- Python `s.replace(pat, rep)` (all occurrences). -/
def pyReplace (s pat rep : String) : String :=
  match pat.data with
  | [] => String.mk (pyReplaceEmptyPat rep.data s.data)
  | p => String.mk (pyReplaceFuel p rep.data s.data.length s.data)

/-- Worker for Python `str.split()` (no separator argument): split on runs of
    whitespace, discarding empty fields.  `acc` is the current word, reversed. -/
def pySplitAux : List Char → List Char → List String
  | [], acc => if acc.isEmpty then [] else [String.mk acc.reverse]
  | c :: cs, acc =>
    if isPySpace c then
      if acc.isEmpty then pySplitAux cs [] else String.mk acc.reverse :: pySplitAux cs []
    else pySplitAux cs (c :: acc)

/-- Python `str.split()` with no arguments. -/
def pySplit (s : String) : List String := pySplitAux s.data []

/-- Python `s.startswith(p)`. -/
def pyStartsWith (s p : String) : Bool := p.data.isPrefixOf s.data

/-! ## Deduplication cache (`FeishuBot._handle_message`, feishu_ws.py 169-187)

The cache `self._processed_messages` is a Python `set`.  A CPython `set` is an
unordered hash table: iterating it (`list(self._processed_messages)`) yields
its elements in a hash-dependent order that is unrelated to insertion order
(string hashes are additionally randomized per process).  The model therefore
keeps the ghost insertion-order list `seen` as the cache contents (oldest
first) and takes the set's iteration order as a parameter `enum`; any function
producing a permutation of its input is a possible iteration order.  The whole
check-and-record block runs under `self._lock`, so it is modelled as one
atomic function on the cache state.  The element type is generic, as a Python
set is; the code stores `message_id` strings. -/

/-- Cache capacity `self._max_cache_size` (feishu_ws.py line 93). -/
def maxCacheSize : Nat := 500

/-- The dedup gate of `_handle_message` (feishu_ws.py lines 176-184): under the
    lock, return `true` and leave the cache unchanged if `mid` was seen,
    otherwise record `mid` and, if the size now exceeds `maxCacheSize`, discard
    the first `maxCacheSize / 2` elements of the set's iteration order
    (`list(self._processed_messages)[:self._max_cache_size // 2]`). -/
def dedupTestAndSet {α : Type} [DecidableEq α] (enum : List α → List α)
    (seen : List α) (mid : α) : Bool × List α :=
  if mid ∈ seen then (true, seen)
  else
    let s' := seen ++ [mid]
    if maxCacheSize < s'.length then
      let oldest := (enum s').take (maxCacheSize / 2)
      (false, s'.filter (fun x => decide (x ∉ oldest)))
    else (false, s')

/-! ## Conversation memory (conversation_memory.py) -/

/-- One history entry `{"role": role, "content": content}`. -/
structure Turn where
  role : String
  content : String
deriving DecidableEq, Repr

/-- `ConversationContext`: `history` is a `deque(maxlen=max_history)`; the
    maxlen bound is applied at each `add_message`. -/
structure ConversationContext where
  history : List Turn
  last_updated : Rat
deriving DecidableEq, Repr

/-- An append to a `deque(maxlen=maxH)`: the new element goes to the right and,
    if the deque is over capacity, the leftmost element is discarded. -/
def boundedAppend (maxH : Nat) (h : List Turn) (t : Turn) : List Turn :=
  let h' := h ++ [t]
  if maxH < h'.length then h'.drop 1 else h'

/-- `ConversationContext.add_message`: append the turn (a full deque discards
    its oldest element) and set `last_updated` to the current time. -/
def ConversationContext.add_message (ctx : ConversationContext) (maxH : Nat)
    (now : Rat) (role content : String) : ConversationContext :=
  ⟨boundedAppend maxH ctx.history ⟨role, content⟩, now⟩

/-- `ConversationContext.get_messages`. -/
def ConversationContext.get_messages (ctx : ConversationContext) : List Turn :=
  ctx.history

/-- `ConversationMemory`: `_conversations` is a Python dict, modelled as an
    insertion-ordered association list with unique keys. -/
structure ConversationMemory where
  conversations : List (String × ConversationContext)
  max_history : Nat
  ttl_seconds : Rat
deriving DecidableEq, Repr

/-- `ConversationMemory()` constructor defaults (max_history=10, ttl=3600). -/
def ConversationMemory.init : ConversationMemory := ⟨[], 10, 3600⟩

/-- Dict lookup `self._conversations[chat_id]` / `chat_id in self._conversations`. -/
def assocFind : List (String × ConversationContext) → String → Option ConversationContext
  | [], _ => none
  | e :: es, cid => if e.1 = cid then some e.2 else assocFind es cid

/-- Dict assignment `self._conversations[chat_id] = ctx`: replace in place if
    the key exists, otherwise append (Python dicts preserve insertion order). -/
def assocStore (v : ConversationContext) :
    List (String × ConversationContext) → String → List (String × ConversationContext)
  | [], cid => [(cid, v)]
  | e :: es, cid => if e.1 = cid then (cid, v) :: es else e :: assocStore v es cid

/-- Apply `f` to the value stored at `cid`, if any. -/
def assocUpdate (f : ConversationContext → ConversationContext) :
    List (String × ConversationContext) → String → List (String × ConversationContext)
  | [], _ => []
  | e :: es, cid => (if e.1 = cid then (e.1, f e.2) else e) :: assocUpdate f es cid

/-- Lookup on a memory value. -/
def memLookup (m : ConversationMemory) (cid : String) : Option ConversationContext :=
  assocFind m.conversations cid

/-- `ConversationMemory._ensure_context`: create an empty context for absent ids. -/
def ConversationMemory.ensure_context (m : ConversationMemory) (now : Rat)
    (cid : String) : ConversationMemory :=
  match memLookup m cid with
  | some _ => m
  | none => { m with conversations := assocStore ⟨[], now⟩ m.conversations cid }

/-- The statement `self._conversations[chat_id].add_message(role, content)`. -/
def ConversationMemory.appendTurn (m : ConversationMemory) (now : Rat)
    (cid role content : String) : ConversationMemory :=
  { m with conversations :=
      (assocUpdate (fun ctx => ctx.add_message m.max_history now role content)
        m.conversations cid) }

/-- `ConversationMemory.add_user_message`. -/
def ConversationMemory.add_user_message (m : ConversationMemory) (now : Rat)
    (cid content : String) : ConversationMemory :=
  (m.ensure_context now cid).appendTurn now cid "user" content

/-- `ConversationMemory.add_assistant_message`. -/
def ConversationMemory.add_assistant_message (m : ConversationMemory) (now : Rat)
    (cid content : String) : ConversationMemory :=
  (m.ensure_context now cid).appendTurn now cid "assistant" content

/-- `ConversationMemory._cleanup_expired`: delete every context with
    `now - ctx.last_updated > self.ttl_seconds`. -/
def ConversationMemory.cleanup_expired (m : ConversationMemory) (now : Rat) :
    ConversationMemory :=
  { m with conversations :=
      m.conversations.filter (fun e => !(decide (m.ttl_seconds < now - e.2.last_updated))) }

/-- `ConversationMemory.get_history`: sweep expired contexts, then return the
    (possibly empty) turn list for `cid`, together with the swept store. -/
def ConversationMemory.get_history (m : ConversationMemory) (now : Rat)
    (cid : String) : ConversationMemory × List Turn :=
  let m' := m.cleanup_expired now
  match memLookup m' cid with
  | none => (m', [])
  | some ctx => (m', ctx.get_messages)

/-- `ConversationMemory.clear`. -/
def ConversationMemory.clear (m : ConversationMemory) (cid : String) :
    ConversationMemory :=
  { m with conversations := m.conversations.filter (fun e => !(decide (e.1 = cid))) }

/-! ## Interleaving model for `add_user_message` (claim about concurrency)

`ConversationMemory` takes no lock; the only lock in the subsystem is
`FeishuBot._lock` around the dedup set.  Under CPython's GIL each single dict
operation is atomic, but `add_user_message` is a compound of three such
operations: the membership check in `_ensure_context`, the conditional dict
assignment there, and the `add_message` call on the looked-up context.  The
thread model below decomposes `add_user_message` into exactly these three
atomic steps; a schedule interleaves two such threads. -/

/-- One in-flight `add_user_message(chatId, content)` call: `pc` 0 = about to
    run the `chat_id not in self._conversations` check, 1 = about to run the
    conditional `self._conversations[chat_id] = ConversationContext(...)`,
    2 = about to run `self._conversations[chat_id].add_message(...)`, 3 = done.
    `sawAbsent` is the value the check read. -/
structure AddTurnThread where
  chatId : String
  content : String
  pc : Nat
  sawAbsent : Bool
deriving DecidableEq, Repr

/-- Execute one atomic step of one thread. -/
def threadStep (now : Rat) (m : ConversationMemory) (t : AddTurnThread) :
    ConversationMemory × AddTurnThread :=
  if t.pc = 0 then
    (m, { t with sawAbsent := (memLookup m t.chatId).isNone, pc := 1 })
  else if t.pc = 1 then
    (if t.sawAbsent then
       { m with conversations := assocStore ⟨[], now⟩ m.conversations t.chatId }
     else m,
     { t with pc := 2 })
  else if t.pc = 2 then
    (m.appendTurn now t.chatId "user" t.content, { t with pc := 3 })
  else (m, t)

/-- Run a schedule: `true` steps thread A, `false` steps thread B. -/
def runSched (now : Rat) :
    List Bool → ConversationMemory × AddTurnThread × AddTurnThread →
    ConversationMemory × AddTurnThread × AddTurnThread
  | [], st => st
  | pick :: rest, (m, ta, tb) =>
    if pick then
      let s := threadStep now m ta
      runSched now rest (s.1, s.2, tb)
    else
      let s := threadStep now m tb
      runSched now rest (s.1, ta, s.2)

/-- A fresh `add_user_message(cid, content)` thread. -/
def mkThread (cid content : String) : AddTurnThread := ⟨cid, content, 0, false⟩

/-! ## Inbound events and the worker pipeline (`_process_message_worker`) -/

/-- One block item of a Feishu `post` payload: an image (`tag == "img"` with its
    `image_key`), a text fragment (`tag == "text"`), or anything else. -/
inductive PostItem
  | img (imageKey : String)
  | txt (s : String)
  | other
deriving DecidableEq, Repr

/-- The parsed shape of `event.message.content`.  `malformed` models content on
    which `json.loads` raises; `fields` carries the optional `"text"` and
    `"image_key"` members and the `"content"` block list of a `post`. -/
inductive MessageContent
  | malformed
  | fields (textField : Option String) (imageKeyField : Option String)
      (postBlocks : List (List PostItem))
deriving DecidableEq, Repr

/-- One entry of `event.message.mentions`: its placeholder `key` (the token
    appearing in the text) and `id.open_id` of the mentioned user. -/
structure MentionRec where
  key : String
  openId : String
deriving DecidableEq, Repr

/-- The fields of `event.message` the worker reads.  `create_time` is the raw
    millisecond timestamp (`none` models an unparseable value, on which the
    `int(...)` conversion raises inside the staleness block's local
    try/except).  `msg_type` is the resolved `message_type`/`msg_type`
    attribute. -/
structure InboundMessage where
  message_id : String
  chat_id : String
  chat_type : String
  create_time : Option Int
  mentions : List MentionRec
  msg_type : String
  content : MessageContent
deriving DecidableEq, Repr

/-- An inbound event: the sender's `open_id` and the message. -/
structure InboundEvent where
  sender_open_id : String
  message : InboundMessage
deriving DecidableEq, Repr

/-- Static bot configuration: `self.bot_info.open_id` when identity resolution
    succeeded, and whether `self.analyzer.client` is configured. -/
structure BotCfg where
  botOpenId : Option String
  llmConfigured : Bool
deriving DecidableEq, Repr

/-- A GitHub project descriptor as returned by the collector. -/
structure Project where
  name : String
  url : String
  stars : Nat
  language : String
  description : String
deriving DecidableEq, Repr

/-- Collaborator oracle: the LLM chat completion as a function of the injected
    history, image download success and vision-analysis text, the GitHub
    search/fetch collaborators (`.error` models a raised network exception),
    and the deep-analysis report generation. -/
structure Collab where
  llm : List Turn → String
  imageOk : Bool
  imageAnalysis : String → String
  searchRepo : Except Unit (Option Project)
  fetchRepo : Except Unit (Option Project)
  deepReport : Except Unit String

/-- Gate checkpoints of the worker, in the order the code reaches them. -/
inductive Gate
  | staleness
  | selfEcho
  | mentionGating
  | kindNormalization
  | emptyGuard
deriving DecidableEq, Repr

/-- Terminal outcome of processing one event.  `escapedException` means an
    exception propagated out of `_process_message_worker` uncaught: the first
    `except` clause (feishu_ws.py line 329) runs `self._reply_text(data,
    reply_text)`, and `reply_text` is unbound at every statement of the `try`
    body that can raise (the only binding of `reply_text` is line 322, and no
    statement after it raises), so the handler itself raises
    `UnboundLocalError`, which the second — therefore dead — `except` clause
    does not catch. -/
inductive Outcome
  | droppedStale
  | droppedSelf
  | droppedNoMention
  | droppedMentionOthers
  | imageHandled
  | greetingReplied
  | deepHandled
  | pongReplied
  | helpReplied
  | llmReplied
  | escapedException
deriving DecidableEq, Repr

/-- Whether an outcome is a silent drop. -/
def Outcome.isDropped : Outcome → Bool
  | .droppedStale | .droppedSelf | .droppedNoMention | .droppedMentionOthers => true
  | _ => false

/-- Result of one worker run: the texts passed to `_reply_text` in order, the
    terminal outcome, the conversation memory afterwards, and the trace of gate
    checkpoints the run reached. -/
structure RunResult where
  replies : List String
  outcome : Outcome
  memory : ConversationMemory
  gates : List Gate
deriving Repr

/-- The `content_json.get("text", "")` read (lines 225-229): empty on parse
    failure or a missing `"text"` member. -/
def contentTextField : MessageContent → String
  | .malformed => ""
  | .fields t? _ _ => t?.getD ""

/-- The mention loop (lines 237-243): scan all mentions; any mention of the
    bot sets `mentioned_me` and, if the text is non-empty, strips that
    mention's `key` from it and re-strips whitespace. -/
def stripMentions (botOpenId : Option String) (ms : List MentionRec)
    (t0 : String) : Bool × String :=
  ms.foldl
    (fun acc mn =>
      match botOpenId with
      | some b =>
        if mn.openId = b then
          (true, if acc.2 ≠ "" then pyStrip (pyReplace acc.2 mn.key "") else acc.2)
        else acc
      | none => acc)
    (false, t0)

/-- The `post` block scan (lines 273-278): the last `img` item's key wins, and
    the `text` items are concatenated. -/
def scanPost (blocks : List (List PostItem)) : Option String × String :=
  blocks.foldl
    (fun acc block =>
      block.foldl
        (fun (acc : Option String × String) it =>
          match it with
          | .img k => (some k, acc.2)
          | .txt s => (acc.1, acc.2 ++ s)
          | .other => acc)
        acc)
    (none, "")

/-- The canned greeting of the empty-content guard (line 297). -/
def greetingText : String := "你好！有什么可以帮你的？😊"

/-- The `/ping` reply (line 306). -/
def pongText : String := "Pong! 🏓"

/-- The `/help` reply (line 310). -/
def helpText : String :=
  "📚 **可用命令**\n\n• `/deep <项目名>` - 深度分析 GitHub 项目\n• `/ping` - 测试机器人是否在线\n• `/help` - 显示此帮助信息\n\n💡 **直接对话**\n你也可以直接 @我 聊天，我会回答技术问题！"

/-- The download-and-analyze tail of `_handle_image_message` once an image key
    is at hand: progress reply, then either the vision analysis of the caption
    or the download-failure reply. -/
def imageFlow (oracle : Collab) (caption : String) (imageKey : String) : List String :=
  let _ := imageKey
  "👁️ 正在分析图片，请稍候..." ::
    (if oracle.imageOk then [oracle.imageAnalysis caption]
     else ["❌ 图片下载失败，请检查机器人权限 (需要 im:resource:read)"])

/-- `FeishuBot._handle_image_message` (lines 340-376): its body is wrapped in
    its own try/except, so a `json.loads` failure on a pure-image message is
    caught locally and answered with the image-error reply. -/
def handleImageMessage (oracle : Collab) (content : MessageContent)
    (caption : String) (providedKey : Option String) : List String :=
  match providedKey with
  | some k => imageFlow oracle caption k
  | none =>
    match content with
    | .malformed => ["❌ 图片处理出错: invalid JSON"]
    | .fields _ k? _ =>
      match k? with
      | none => ["❌ 无法获取图片信息"]
      | some k => imageFlow oracle caption k

/-- Group a digit string with thousands separators, as Python's format spec
    `:,` does; works on the reversed digit list. -/
def commaGroupAux : List Char → List Char
  | a :: b :: c :: d :: rest => a :: b :: c :: ',' :: commaGroupAux (d :: rest)
  | l => l

/-- Python `f"{n:,}"` for a natural number. -/
def commaGroup (n : Nat) : String :=
  String.mk (commaGroupAux (toString n).data.reverse).reverse

/-- Whether `handleDeep` completed or raised out of its body. -/
inductive DeepRes
  | done
  | raised
deriving DecidableEq, Repr

/-- The common tail of `_handle_deep_analysis` from line 450: the
    `if not project` failure reply, else the report generation inside its
    try/except. -/
def deepReportStep (oracle : Collab) (repoName : String) (acc : List String) :
    Option Project → List String × DeepRes
  | none =>
    (acc ++ ["❌ 未找到仓库 " ++ repoName ++
      "。\n\n可能原因：\n• 仓库名拼写错误\n• 仓库是私有的\n• GitHub API 限流（稍后重试）"], .done)
  | some _ =>
    match oracle.deepReport with
    | .error _ => (acc ++ ["❌ 生成报告失败: error"], .done)
    | .ok rep => (acc ++ [rep], .done)

/-- `FeishuBot._handle_deep_analysis` (lines 424-483).  The GitHub collaborator
    calls are not inside any try/except, so a raised network exception
    propagates out (`.raised`). -/
def handleDeep (oracle : Collab) (userText : String) : List String × DeepRes :=
  let parts := pySplit userText
  if parts.length < 2 then
    (["请提供仓库名称，例如：`/deep microsoft/agent-lightning`"], .done)
  else
    let repoName := pyStrip ((parts.get? 1).getD "")
    if '/' ∉ repoName.data then
      let r1 := "🔍 正在全网搜索最匹配 `" ++ repoName ++ "` 的项目..."
      match oracle.searchRepo with
      | .error _ => ([r1], .raised)
      | .ok none =>
        ([r1, "❌ 未找到与 `" ++ repoName ++
           "` 相关的热门项目，请尝试提供完整名称 (owner/repo)。"], .done)
      | .ok (some p) =>
        let r2 := "🎯 找到最匹配的项目：[" ++ p.name ++ "](" ++ p.url ++
          ")\n⭐ Stars: " ++ commaGroup p.stars ++ "\n\n正在进行深度分析..."
        deepReportStep oracle repoName [r1, r2] (some p)
    else
      let r1 := "🔍 正在深度挖掘 " ++ repoName ++ "，请稍候（预计耗时 15 秒）..."
      match oracle.fetchRepo with
      | .error _ => ([r1], .raised)
      | .ok proj? => deepReportStep oracle repoName [r1] proj?

/-- `FeishuBot._call_llm` (lines 485-522): unconfigured client short-circuits;
    otherwise the history is fetched via `get_history` (whose TTL sweep
    mutates the store), filtered to user/assistant roles, and handed to the
    LLM collaborator.  The surrounding try/except makes the call total. -/
def callLLM (cfg : BotCfg) (oracle : Collab) (now : Rat) (chatId : String)
    (mem : ConversationMemory) : String × ConversationMemory :=
  if cfg.llmConfigured = false then ("❌ AI Analyzer not configured", mem)
  else
    let g := mem.get_history now chatId
    let cleanHistory := g.2.filter (fun t => t.role == "user" || t.role == "assistant")
    (oracle.llm cleanHistory, g.1)

/-- The worker pipeline from the empty-content guard on (lines 293-327):
    greeting for text shorter than 2 after strip, then the command table
    (`/deep` first, then `/ping`, then `/help`), then the conversational path
    (memory write, LLM call, memory write, reply).  A `/deep` collaborator
    exception reaches the worker's except clause and escapes as an
    `UnboundLocalError` (see `Outcome.escapedException`). -/
def afterNorm (cfg : BotCfg) (oracle : Collab) (now : Rat) (msg : InboundMessage)
    (mem : ConversationMemory) (userText : String) (gs1 : List Gate) : RunResult :=
  let gs2 := gs1 ++ [.emptyGuard]
  if userText = "" ∨ (pyStrip userText).length < 2 then
    ⟨[greetingText], .greetingReplied, mem, gs2⟩
  else if pyStartsWith userText "/deep" then
    let d := handleDeep oracle userText
    ⟨d.1, if d.2 = .raised then .escapedException else .deepHandled, mem, gs2⟩
  else if userText = "/ping" then
    ⟨[pongText], .pongReplied, mem, gs2⟩
  else if userText = "/help" then
    ⟨[helpText], .helpReplied, mem, gs2⟩
  else
    let chatId := msg.chat_id
    let mem1 := mem.add_user_message now chatId userText
    let c := callLLM cfg oracle now chatId mem1
    let mem2 := c.2.add_assistant_message now chatId c.1
    ⟨[c.1], .llmReplied, mem2, gs2⟩

/-- The message-type dispatch (lines 249-282): pure `image` messages go to
    `_handle_image_message`; `post` messages re-parse the content — here
    `json.loads` is NOT inside any local try/except, so malformed content
    raises out of the worker body — and, when an embedded image is found, go
    to `_handle_image_message` with the concatenated text blocks as caption;
    everything else falls through to the empty-content guard. -/
def afterGates (cfg : BotCfg) (oracle : Collab) (now : Rat) (msg : InboundMessage)
    (mem : ConversationMemory) (userText : String) (gs : List Gate) : RunResult :=
  let gs1 := gs ++ [.kindNormalization]
  if msg.msg_type = "image" then
    ⟨handleImageMessage oracle msg.content "" none, .imageHandled, mem, gs1⟩
  else if msg.msg_type = "post" then
    match msg.content with
    | .malformed => ⟨[], .escapedException, mem, gs1⟩
    | .fields tf kf blocks =>
      let sp := scanPost blocks
      match sp.1 with
      | some k =>
        ⟨handleImageMessage oracle (MessageContent.fields tf kf blocks)
          (pyStrip sp.2) (some k), .imageHandled, mem, gs1⟩
      | none => afterNorm cfg oracle now msg mem userText gs1
  else afterNorm cfg oracle now msg mem userText gs1

/-- `FeishuBot._process_message_worker` (lines 189-335).  In code order:
    staleness (drop messages older than 60 s; unparseable `create_time` is
    swallowed by a local try/except and processing continues), self-echo
    (drop when the sender is the bot itself), the raw `"text"` extraction,
    the group mention gate (drop group messages with no mentions or with no
    mention of the bot; strip the bot's mention key from the text), then the
    message-type dispatch and the rest of the pipeline.  The `gates` trace
    records the checkpoints the run reached, in execution order. -/
def processMessageWorker (cfg : BotCfg) (oracle : Collab) (now : Rat)
    (ev : InboundEvent) (mem : ConversationMemory) : RunResult :=
  let msg := ev.message
  let staleDrop : Bool :=
    match msg.create_time with
    | some t => decide ((60 : Rat) < now - (t : Rat) / 1000)
    | none => false
  if staleDrop then ⟨[], .droppedStale, mem, [.staleness]⟩
  else if cfg.botOpenId = some ev.sender_open_id then
    ⟨[], .droppedSelf, mem, [.staleness, .selfEcho]⟩
  else
    let text0 := pyStrip (contentTextField msg.content)
    if msg.chat_type = "group" then
      if msg.mentions = [] then
        ⟨[], .droppedNoMention, mem, [.staleness, .selfEcho, .mentionGating]⟩
      else
        let sm := stripMentions cfg.botOpenId msg.mentions text0
        if sm.1 = false then
          ⟨[], .droppedMentionOthers, mem, [.staleness, .selfEcho, .mentionGating]⟩
        else
          afterGates cfg oracle now msg mem sm.2 [.staleness, .selfEcho, .mentionGating]
    else
      afterGates cfg oracle now msg mem text0 [.staleness, .selfEcho]

/-! ## Reply construction (`FeishuBot._reply_text`, lines 524-558) -/

/-- The reply request the bot builds: the id of the message being replied to
    and the inner text of the JSON `{"text": ...}` body. -/
structure ReplyPayload where
  target_message_id : String
  text : String
deriving DecidableEq, Repr

/-- `_reply_text`: in a group chat the text is prefixed with an at-mention tag
    of the original sender's `open_id`; otherwise it is sent as is.  The reply
    always targets the original `message_id`. -/
def replyPayload (ev : InboundEvent) (text : String) : ReplyPayload :=
  if ev.message.chat_type = "group" then
    ⟨ev.message.message_id,
      "<at user_id=\"" ++ ev.sender_open_id ++ "\"></at> " ++ text⟩
  else
    ⟨ev.message.message_id, text⟩

/-! ## Auxiliary definitions used to state the verified properties -/

/-- The gate order actually implemented by `_process_message_worker`:
    staleness, self-echo, mention gating, kind normalization, empty guard. -/
def gateOrder : List Gate :=
  [.staleness, .selfEcho, .mentionGating, .kindNormalization, .emptyGuard]

/-- One `addTurn` call, as (timestamp, role, content). -/
def turnOf (op : Rat × String × String) : Turn := ⟨op.2.1, op.2.2⟩

/-- One `addTurn(conversation_id, role, content)` step.  `add_user_message` and
    `add_assistant_message` are exactly this with role `"user"` resp.
    `"assistant"`. -/
def addTurn (cid : String) (m : ConversationMemory) (op : Rat × String × String) :
    ConversationMemory :=
  (m.ensure_context op.1 cid).appendTurn op.1 cid op.2.1 op.2.2

/-- A sequence of `addTurn` calls on one conversation. -/
def applyTurns (m : ConversationMemory) (cid : String)
    (ops : List (Rat × String × String)) : ConversationMemory :=
  ops.foldl (addTurn cid) m

/-- The stored turn list of a conversation (empty when absent). -/
def historyOf (m : ConversationMemory) (cid : String) : List Turn :=
  ((memLookup m cid).map ConversationContext.history).getD []

/-- A fresh direct-chat text event carrying exactly `"/ping"`. -/
def pingEvent (t : Int) (sender mid cid : String) : InboundEvent :=
  ⟨sender, ⟨mid, cid, "p2p", some t, [], "text", .fields (some "/ping") none []⟩⟩

/-- Concrete configuration used for ground instances: the bot's open id is
    `"bot"` and the LLM client is configured. -/
def cfgW : BotCfg := ⟨some "bot", true⟩

/-- Concrete collaborator oracle used for ground instances. -/
def oracleW : Collab :=
  ⟨fun _ => "LLMREPLY", true, fun c => "IMG:" ++ c, .ok none, .ok none, .ok "REPORT"⟩

/-- Group-chat text event `"@_user_1 hi"` with a mention targeting the bot. -/
def evHiW : InboundEvent :=
  ⟨"alice", ⟨"m2", "chat1", "group", some 1000000, [⟨"@_user_1", "bot"⟩], "text",
    .fields (some "@_user_1 hi") none []⟩⟩

/-- Group-chat text event `"@_user_1 h"` with a mention targeting the bot. -/
def evHW : InboundEvent :=
  ⟨"alice", ⟨"m3", "chat1", "group", some 1000000, [⟨"@_user_1", "bot"⟩], "text",
    .fields (some "@_user_1 h") none []⟩⟩

/-- Group-chat `post` event with an embedded image block and no mentions. -/
def evPostNoMentionW : InboundEvent :=
  ⟨"alice", ⟨"m4", "chat1", "group", some 1000000, [], "post",
    .fields none none [[.img "imgkey1", .txt "caption here"]]⟩⟩

/-- Direct-chat `post` event whose content `json.loads` cannot parse. -/
def evBadPostW : InboundEvent :=
  ⟨"alice", ⟨"m5", "chat1", "p2p", some 1000000, [], "post", .malformed⟩⟩

/-! ## Theorems -/

/-- Helper: a lookup never finds a key that is not among the keys. -/
theorem assocFind_eq_none_of_not_mem (l : List (String × ConversationContext))
    (cid : String) (h : cid ∉ l.map Prod.fst) : assocFind l cid = none := by
  induction l with
  | nil => rfl
  | cons e es ih =>
    simp only [List.map_cons, List.mem_cons] at h
    push_neg at h
    have h1 : ¬ e.1 = cid := fun he => h.1 he.symm
    simp [assocFind, h1, ih h.2]

/-- Helper: a successful lookup exhibits a member of the list. -/
theorem assocFind_mem (l : List (String × ConversationContext)) (cid : String)
    (ctx : ConversationContext) (h : assocFind l cid = some ctx) : (cid, ctx) ∈ l := by
  induction l with
  | nil => simp [assocFind] at h
  | cons e es ih =>
    by_cases he : e.1 = cid
    · simp only [assocFind, if_pos he] at h
      injection h with h2
      have : e = (cid, ctx) := Prod.ext he h2
      rw [this]
      exact List.mem_cons_self _ _
    · simp only [assocFind, if_neg he] at h
      exact List.mem_cons_of_mem _ (ih h)

/-- Helper: removing the elements of `b` from a duplicate-free list `l` that
    contains them all removes exactly `b.length` elements. -/
theorem length_filter_not_mem {α : Type} [DecidableEq α] (l b : List α)
    (hl : l.Nodup) (hb : b.Nodup) (hsub : ∀ x ∈ b, x ∈ l) :
    (l.filter (fun x => decide (x ∉ b))).length = l.length - b.length := by
  have hfn : (l.filter (fun x => decide (x ∉ b))).Nodup := hl.filter _
  have htf : (l.filter (fun x => decide (x ∉ b))).toFinset = l.toFinset \ b.toFinset := by
    ext x
    simp [List.mem_filter, List.mem_toFinset]
  have hsubf : b.toFinset ⊆ l.toFinset := by
    intro x hx
    simp only [List.mem_toFinset] at hx ⊢
    exact hsub x hx
  calc (l.filter (fun x => decide (x ∉ b))).length
      = (l.filter (fun x => decide (x ∉ b))).toFinset.card :=
        (List.toFinset_card_of_nodup hfn).symm
    _ = (l.toFinset \ b.toFinset).card := by rw [htf]
    _ = l.toFinset.card - b.toFinset.card := Finset.card_sdiff hsubf
    _ = l.length - b.length := by
        rw [List.toFinset_card_of_nodup hl, List.toFinset_card_of_nodup hb]

/-- C1: dedup idempotence and atomicity.  An already-seen id yields `true` and
    leaves the cache unchanged, so every call between recording and eviction
    reports "already seen" and is a no-op; an unseen id yields `false` and is
    recorded (it is the cache's newest entry whenever recording does not
    overflow the capacity).  The whole check-and-record is one operation on the
    cache state, as the code's `with self._lock` makes it.  The set iteration
    order `enum` plays no role in any of this. -/
theorem C1_dedup_idempotent {α : Type} [DecidableEq α] (enum : List α → List α)
    (seen : List α) (mid : α) :
    (mid ∈ seen → dedupTestAndSet enum seen mid = (true, seen)) ∧
    (mid ∉ seen → (dedupTestAndSet enum seen mid).1 = false ∧
      (seen.length < maxCacheSize → (dedupTestAndSet enum seen mid).2 = seen ++ [mid])) := by
  refine ⟨fun h => by simp [dedupTestAndSet, h], fun h => ⟨?_, fun hlen => ?_⟩⟩
  · simp only [dedupTestAndSet, if_neg h]
    split <;> rfl
  · have hno : ¬ maxCacheSize < (seen ++ [mid]).length := by
      simp only [List.length_append, List.length_cons, List.length_nil]
      omega
    simp only [dedupTestAndSet, if_neg h, if_neg hno]

/-- Witness for C1 at concrete inputs. -/
theorem C1_witness :
    dedupTestAndSet (fun l => l) ["a", "b"] "a" = (true, ["a", "b"]) ∧
    (dedupTestAndSet (fun l => l) ["a", "b"] "c").1 = false ∧
    (dedupTestAndSet (fun l => l) ["a", "b"] "c").2 = ["a", "b", "c"] := by
  refine ⟨(C1_dedup_idempotent (fun l => l) ["a", "b"] "a").1 (by decide), ?_, ?_⟩
  · exact ((C1_dedup_idempotent (fun l => l) ["a", "b"] "c").2 (by decide)).1
  · exact ((C1_dedup_idempotent (fun l => l) ["a", "b"] "c").2 (by decide)).2 (by decide)

/-- C3 counterexample: with the cache holding ids `0..499` in insertion order
    and id `500` arriving, an admissible set iteration order (here: reversed,
    a permutation of the contents — CPython sets of strings iterate in a
    hash-randomized order unrelated to insertion) evicts a batch that is NOT
    the 250 earliest-inserted entries: the earliest entry `0` survives and the
    just-recorded `500` is itself evicted.  Eviction did trigger and removed
    exactly 250 entries. -/
theorem C3_counterexample :
    ((List.range 500 ++ [500]).reverse).Perm (List.range 500 ++ [500]) ∧
    (dedupTestAndSet List.reverse (List.range 500) 500).1 = false ∧
    (0 : Nat) ∈ (dedupTestAndSet List.reverse (List.range 500) 500).2 ∧
    (500 : Nat) ∉ (dedupTestAndSet List.reverse (List.range 500) 500).2 ∧
    (dedupTestAndSet List.reverse (List.range 500) 500).2.length = 251 := by
  refine ⟨List.reverse_perm _, ?_, ?_, ?_, ?_⟩ <;> decide

/-- C3 amended: when recording a new id pushes the cache size above the
    capacity, exactly `maxCacheSize / 2` entries — the first half of the set's
    iteration order, whatever permutation of the contents that order is — are
    removed in one batch during the same operation, and the size never exceeds
    the capacity once the operation completes.  Which entries are removed is
    determined by the iteration order, not by insertion order. -/
theorem C3_evict_bound {α : Type} [DecidableEq α] (enum : List α → List α)
    (henum : ∀ l, (enum l).Perm l) (seen : List α) (hnd : seen.Nodup) (mid : α)
    (hcap : seen.length ≤ maxCacheSize) :
    (dedupTestAndSet enum seen mid).2.length ≤ maxCacheSize ∧
    (mid ∉ seen → maxCacheSize < seen.length + 1 →
      (dedupTestAndSet enum seen mid).2.length = seen.length + 1 - maxCacheSize / 2) := by
  have hmc : maxCacheSize = 500 := rfl
  by_cases h : mid ∈ seen
  · exact ⟨by simpa [dedupTestAndSet, h] using hcap, fun hn => absurd h hn⟩
  · have hs' : (seen ++ [mid]).Nodup := by
      rw [List.nodup_append]
      exact ⟨hnd, List.nodup_singleton _, by simpa using fun hx => h hx⟩
    have hlen' : (seen ++ [mid]).length = seen.length + 1 := by simp
    by_cases hev : maxCacheSize < (seen ++ [mid]).length
    · have henod : (enum (seen ++ [mid])).Nodup := ((henum _).nodup_iff).mpr hs'
      have hbnod : ((enum (seen ++ [mid])).take (maxCacheSize / 2)).Nodup :=
        (List.take_sublist _ _).nodup henod
      have hbsub : ∀ x ∈ (enum (seen ++ [mid])).take (maxCacheSize / 2),
          x ∈ seen ++ [mid] := fun x hx =>
        ((henum _).mem_iff).mp (List.take_subset _ _ hx)
      have hblen : ((enum (seen ++ [mid])).take (maxCacheSize / 2)).length =
          maxCacheSize / 2 := by
        rw [List.length_take, (henum _).length_eq, hlen']
        omega
      have hres : (dedupTestAndSet enum seen mid).2 =
          (seen ++ [mid]).filter
            (fun x => decide (x ∉ (enum (seen ++ [mid])).take (maxCacheSize / 2))) := by
        simp only [dedupTestAndSet, if_neg h, if_pos hev]
      have hflen := length_filter_not_mem (seen ++ [mid]) _ hs' hbnod hbsub
      rw [hres, hflen, hblen, hlen']
      omega
    · have hres : (dedupTestAndSet enum seen mid).2 = seen ++ [mid] := by
        simp only [dedupTestAndSet, if_neg h, if_neg hev]
      rw [hres, hlen']
      omega

/-- Witness for C3 (amended) at a concrete overflowing cache with the identity
    iteration order. -/
theorem C3_witness :
    (dedupTestAndSet (fun l => l) (List.range 500) 500).2.length ≤ maxCacheSize ∧
    (dedupTestAndSet (fun l => l) (List.range 500) 500).2.length = 251 := by
  have h := C3_evict_bound (fun l => l) (fun l => List.Perm.refl l) (List.range 500)
    (List.nodup_range 500) 500 (by simp [maxCacheSize])
  refine ⟨h.1, ?_⟩
  have h2 := h.2 (by simp) (by simp [maxCacheSize, List.length_range])
  simpa [maxCacheSize, List.length_range] using h2

/-- Helper: taking the last `n` of the last `n` of `l`, with more appended, is
    taking the last `n` of the whole. -/
theorem rtake_rtake_append {α : Type} (n : Nat) (l r : List α) :
    List.rtake (List.rtake l n ++ r) n = List.rtake (l ++ r) n := by
  rw [List.rtake_eq_reverse_take_reverse, List.rtake_eq_reverse_take_reverse,
    List.rtake_eq_reverse_take_reverse, List.reverse_append, List.reverse_reverse,
    List.reverse_append]
  congr 1
  rw [List.take_append_eq_append_take, List.take_append_eq_append_take, List.take_take,
    Nat.min_eq_left (Nat.sub_le _ _)]

/-- Helper: a bounded deque append from a within-capacity state keeps the last
    `n` elements of the appended sequence. -/
theorem boundedAppend_eq_rtake (n : Nat) (h : List Turn) (t : Turn)
    (hle : h.length ≤ n) : boundedAppend n h t = List.rtake (h ++ [t]) n := by
  simp only [boundedAppend, List.rtake, List.length_append, List.length_cons,
    List.length_nil, Nat.zero_add]
  split
  · have he : h.length + 1 - n = 1 := by omega
    rw [he]
  · have he : h.length + 1 - n = 0 := by omega
    rw [he, List.drop_zero]

/-- Helper: a bounded deque append never exceeds the capacity. -/
theorem boundedAppend_length_le (n : Nat) (h : List Turn) (t : Turn)
    (hle : h.length ≤ n) : (boundedAppend n h t).length ≤ n := by
  simp only [boundedAppend]
  split
  · simp only [List.length_drop, List.length_append, List.length_cons, List.length_nil]
    omega
  · simp only [List.length_append, List.length_cons, List.length_nil] at *
    omega

/-- Helper: folding bounded appends from a within-capacity state yields exactly
    the last `n` of the full appended sequence. -/
theorem foldl_boundedAppend (n : Nat) (ops : List (Rat × String × String)) :
    ∀ h : List Turn, h.length ≤ n →
      ops.foldl (fun acc op => boundedAppend n acc (turnOf op)) h =
        List.rtake (h ++ ops.map turnOf) n := by
  induction ops with
  | nil =>
    intro h hle
    simp only [List.foldl_nil, List.map_nil, List.append_nil, List.rtake,
      Nat.sub_eq_zero_of_le hle, List.drop_zero]
  | cons op ops ih =>
    intro h hle
    rw [List.foldl_cons, ih _ (boundedAppend_length_le n h (turnOf op) hle),
      boundedAppend_eq_rtake n h (turnOf op) hle, rtake_rtake_append,
      List.map_cons, List.append_assoc]
    rfl

/-- Helper: `addTurn` never changes `max_history`. -/
theorem addTurn_max_history (cid : String) (m : ConversationMemory)
    (op : Rat × String × String) : (addTurn cid m op).max_history = m.max_history := by
  simp only [addTurn, ConversationMemory.ensure_context, ConversationMemory.appendTurn]
  cases memLookup m cid <;> rfl

/-- Helper: looking up through `assocStore` at the stored key. -/
theorem assocFind_store_self (l : List (String × ConversationContext))
    (cid : String) (v : ConversationContext) :
    assocFind (assocStore v l cid) cid = some v := by
  induction l with
  | nil => simp [assocStore, assocFind]
  | cons e es ih =>
    by_cases he : e.1 = cid
    · simp [assocStore, he, assocFind]
    · simp [assocStore, he, assocFind, ih]

/-- Helper: looking up through `assocUpdate` at the updated key. -/
theorem assocFind_update_self (f : ConversationContext → ConversationContext)
    (l : List (String × ConversationContext)) (cid : String) :
    assocFind (assocUpdate f l cid) cid = (assocFind l cid).map f := by
  induction l with
  | nil => simp [assocUpdate, assocFind]
  | cons e es ih =>
    by_cases he : e.1 = cid
    · simp [assocUpdate, he, assocFind]
    · simp [assocUpdate, he, assocFind, ih]

/-- Helper: the stored history after one `addTurn` is a bounded append to the
    previous one (creating the context on demand). -/
theorem historyOf_addTurn (cid : String) (m : ConversationMemory)
    (op : Rat × String × String) :
    historyOf (addTurn cid m op) cid =
      boundedAppend m.max_history (historyOf m cid) (turnOf op) := by
  simp only [addTurn, ConversationMemory.ensure_context]
  cases hl : memLookup m cid with
  | some ctx =>
    simp only [historyOf, ConversationMemory.appendTurn, memLookup,
      assocFind_update_self]
    simp only [memLookup] at hl
    simp [hl, ConversationContext.add_message, historyOf, turnOf]
  | none =>
    simp only [historyOf, ConversationMemory.appendTurn, memLookup,
      assocFind_update_self, assocFind_store_self]
    simp only [memLookup] at hl
    simp [hl, ConversationContext.add_message, historyOf, turnOf]

/-- Helper: a run of `addTurn`s folds the bounded append over the stored history. -/
theorem historyOf_applyTurns (cid : String) (m : ConversationMemory)
    (ops : List (Rat × String × String)) :
    historyOf (applyTurns m cid ops) cid =
      ops.foldl (fun acc op => boundedAppend m.max_history acc (turnOf op))
        (historyOf m cid) := by
  induction ops generalizing m with
  | nil => rfl
  | cons op ops ih =>
    simp only [applyTurns, List.foldl_cons] at *
    rw [ih (addTurn cid m op), historyOf_addTurn, addTurn_max_history]

/-- C4: history bound.  Starting from a conversation with no stored context,
    after `max_history + k` `addTurn` calls exactly the `max_history` most
    recent turns remain, oldest first; and after every prefix of the calls the
    stored turn count is at most `max_history`. -/
theorem C4_history_bound (m : ConversationMemory) (cid : String)
    (ops : List (Rat × String × String)) (k : Nat)
    (hfresh : memLookup m cid = none) (hlen : ops.length = m.max_history + k) :
    historyOf (applyTurns m cid ops) cid = (ops.map turnOf).drop k ∧
    ∀ p q, ops = p ++ q →
      (historyOf (applyTurns m cid p) cid).length ≤ m.max_history := by
  have h0 : historyOf m cid = [] := by simp [historyOf, hfresh]
  constructor
  · rw [historyOf_applyTurns, h0, foldl_boundedAppend m.max_history ops []
      (by simp), List.nil_append, List.rtake]
    congr 1
    simp [hlen]
  · intro p q hpq
    rw [historyOf_applyTurns, h0, foldl_boundedAppend m.max_history p []
      (by simp), List.nil_append, List.rtake, List.length_drop]
    omega

/-- Witness for C4: twelve `addTurn` calls on a fresh conversation with the
    default `max_history = 10` leave the last ten turns. -/
theorem C4_witness :
    historyOf (applyTurns ConversationMemory.init "c"
      ((List.range 12).map (fun i => ((i : Rat), "user", "m")))) "c" =
      (((List.range 12).map (fun i => ((i : Rat), "user", "m"))).map turnOf).drop 2 ∧
    (historyOf (applyTurns ConversationMemory.init "c"
      ((List.range 12).map (fun i => ((i : Rat), "user", "m")))) "c").length ≤ 10 := by
  have h := C4_history_bound ConversationMemory.init "c"
    ((List.range 12).map (fun i => ((i : Rat), "user", "m"))) 2 rfl (by decide)
  exact ⟨h.1, h.2 _ [] (by simp)⟩

/-- Helper: with duplicate-free keys, a found entry is the only one with its key. -/
theorem assocFind_filter_eq_none (l : List (String × ConversationContext))
    (cid : String) (p : String × ConversationContext → Bool)
    (hnd : (l.map Prod.fst).Nodup) (ctx : ConversationContext)
    (hmem : assocFind l cid = some ctx) (hdrop : p (cid, ctx) = false) :
    assocFind (l.filter p) cid = none := by
  induction l with
  | nil => simp [assocFind] at hmem
  | cons e es ih =>
    simp only [List.map_cons, List.nodup_cons] at hnd
    by_cases he : e.1 = cid
    · simp only [assocFind, if_pos he] at hmem
      injection hmem with h2
      have heq : e = (cid, ctx) := Prod.ext he h2
      subst heq
      have hkeys : cid ∉ (es.filter p).map Prod.fst := by
        intro hc
        apply hnd.1
        have hsub : es.filter p ⊆ es := (List.filter_sublist es).subset
        exact List.map_subset Prod.fst hsub hc
      rw [List.filter_cons, hdrop]
      exact assocFind_eq_none_of_not_mem _ _ hkeys
    · simp only [assocFind, if_neg he] at hmem
      rw [List.filter_cons]
      split
      · simp only [assocFind, if_neg he]
        exact ih hnd.2 hmem
      · exact ih hnd.2 hmem

/-- C5: TTL expiry on read.  `get_history` first sweeps out every expired
    context (so no surviving context is older than `ttl_seconds`), and for a
    conversation present in the store but untouched for more than
    `ttl_seconds` it returns the empty sequence and strictly shrinks the
    store. -/
theorem C5_ttl_expiry (m : ConversationMemory) (now : Rat) (cid : String)
    (ctx : ConversationContext)
    (hnd : (m.conversations.map Prod.fst).Nodup)
    (hmem : memLookup m cid = some ctx)
    (hexp : m.ttl_seconds < now - ctx.last_updated) :
    (∀ e ∈ (m.get_history now cid).1.conversations,
        ¬ m.ttl_seconds < now - e.2.last_updated) ∧
    (m.get_history now cid).2 = [] ∧
    (m.get_history now cid).1.conversations.length < m.conversations.length := by
  have hfst : (m.get_history now cid).1 = m.cleanup_expired now := by
    simp only [ConversationMemory.get_history]
    split <;> rfl
  have hlook : memLookup (m.cleanup_expired now) cid = none := by
    simp only [ConversationMemory.cleanup_expired, memLookup]
    exact assocFind_filter_eq_none m.conversations cid _ hnd ctx hmem
      (by simp [hexp])
  refine ⟨?_, ?_, ?_⟩
  · intro e he
    rw [hfst] at he
    simp only [ConversationMemory.cleanup_expired] at he
    have := List.of_mem_filter he
    simpa using this
  · simp only [ConversationMemory.get_history]
    rw [hlook]
  · rw [hfst]
    simp only [ConversationMemory.cleanup_expired]
    have hmem' : (cid, ctx) ∈ m.conversations := assocFind_mem _ _ _ hmem
    refine List.length_filter_lt_length_iff_exists.mpr ?_
    exact ⟨(cid, ctx), hmem', by simp [hexp]⟩

/-- Witness for C5: a store holding one conversation last updated at time 0,
    read at time 4000 with the default TTL of 3600. -/
theorem C5_witness :
    ((ConversationMemory.mk [("c", ⟨[⟨"user", "hello"⟩], 0⟩)] 10 3600).get_history
        4000 "c").2 = [] ∧
    ((ConversationMemory.mk [("c", ⟨[⟨"user", "hello"⟩], 0⟩)] 10 3600).get_history
        4000 "c").1.conversations.length < 1 := by
  have h := C5_ttl_expiry (ConversationMemory.mk [("c", ⟨[⟨"user", "hello"⟩], 0⟩)] 10 3600)
    4000 "c" ⟨[⟨"user", "hello"⟩], 0⟩ (by simp) rfl (by norm_num)
  exact ⟨h.2.1, h.2.2⟩

/-- C9 counterexample: `ConversationMemory` takes no lock, so the three atomic
    dict operations inside two concurrent `add_user_message` calls on the same
    conversation can interleave as check-A, check-B, create-A, append-A,
    create-B (overwriting the context holding A's turn), append-B — after
    which only B's turn is stored: A's update is lost, refuting "both turns
    present afterward". -/
theorem C9_lost_update :
    (runSched 100 [true, false, true, true, false, false]
      (ConversationMemory.init, mkThread "c" "alpha", mkThread "c" "beta")).1.conversations =
      [("c", ⟨[⟨"user", "beta"⟩], 100⟩)] ∧
    Turn.mk "user" "alpha" ∉
      historyOf (runSched 100 [true, false, true, true, false, false]
        (ConversationMemory.init, mkThread "c" "alpha", mkThread "c" "beta")).1 "c" := by
  constructor
  · rfl
  · decide

/-- C9 amended: the conversation store itself provides no critical section
    (only the dedup cache is lock-protected), so concurrent `addTurn`s can
    lose updates; but whenever the two `addTurn` calls do not interleave —
    here: thread A runs its three steps to completion, then thread B — both
    turns are present afterwards, in order, and the length stays within
    `max_history`. -/
theorem C9_sequential_no_lost_update (now : Rat) (ca cb : String) :
    historyOf (runSched now [true, true, true, false, false, false]
      (ConversationMemory.init, mkThread "c" ca, mkThread "c" cb)).1 "c" =
      [⟨"user", ca⟩, ⟨"user", cb⟩] ∧
    (historyOf (runSched now [true, true, true, false, false, false]
      (ConversationMemory.init, mkThread "c" ca, mkThread "c" cb)).1 "c").length ≤
      ConversationMemory.init.max_history := by
  refine ⟨rfl, ?_⟩
  show ([⟨"user", ca⟩, ⟨"user", cb⟩] : List Turn).length ≤ ConversationMemory.init.max_history
  norm_num [ConversationMemory.init]

/-- C2 counterexample: for a group-chat rich-post event with an embedded image
    block and an empty mention list, the worker drops the event at the mention
    gate and the kind-normalization checkpoint is never reached — so kind
    normalization is NOT performed before mention gating; the code's mention
    gate runs first. -/
theorem C2_counterexample :
    Gate.mentionGating ∈
      (processMessageWorker cfgW oracleW 1000 evPostNoMentionW ConversationMemory.init).gates ∧
    Gate.kindNormalization ∉
      (processMessageWorker cfgW oracleW 1000 evPostNoMentionW ConversationMemory.init).gates ∧
    (processMessageWorker cfgW oracleW 1000 evPostNoMentionW ConversationMemory.init).outcome =
      Outcome.droppedNoMention := by
  refine ⟨?_, ?_, ?_⟩ <;> with_unfolding_all decide

/-- Helper: the tail of the pipeline always appends exactly the empty-guard
    checkpoint to the gate trace. -/
theorem afterNorm_gates (cfg : BotCfg) (oracle : Collab) (now : Rat)
    (msg : InboundMessage) (mem : ConversationMemory) (t : String) (gs1 : List Gate) :
    (afterNorm cfg oracle now msg mem t gs1).gates = gs1 ++ [.emptyGuard] := by
  unfold afterNorm
  dsimp only
  repeat' split
  all_goals rfl

/-- Helper: once past the gates, the outcome is never a silent drop. -/
theorem afterNorm_outcome_not_dropped (cfg : BotCfg) (oracle : Collab) (now : Rat)
    (msg : InboundMessage) (mem : ConversationMemory) (t : String) (gs1 : List Gate) :
    (afterNorm cfg oracle now msg mem t gs1).outcome.isDropped = false := by
  unfold afterNorm
  dsimp only
  repeat' split
  all_goals rfl

/-- Helper: the type dispatch appends the kind-normalization checkpoint and
    possibly the empty-guard one. -/
theorem afterGates_gates (cfg : BotCfg) (oracle : Collab) (now : Rat)
    (msg : InboundMessage) (mem : ConversationMemory) (t : String) (gs : List Gate) :
    (afterGates cfg oracle now msg mem t gs).gates = gs ++ [.kindNormalization] ∨
    (afterGates cfg oracle now msg mem t gs).gates =
      gs ++ [.kindNormalization, .emptyGuard] := by
  unfold afterGates
  dsimp only
  repeat' split
  all_goals first
    | exact Or.inl rfl
    | (right
       rw [afterNorm_gates]
       simp)

/-- Helper: the type dispatch never produces a silent drop. -/
theorem afterGates_outcome_not_dropped (cfg : BotCfg) (oracle : Collab) (now : Rat)
    (msg : InboundMessage) (mem : ConversationMemory) (t : String) (gs : List Gate) :
    (afterGates cfg oracle now msg mem t gs).outcome.isDropped = false := by
  unfold afterGates
  dsimp only
  repeat' split
  all_goals first
    | rfl
    | exact afterNorm_outcome_not_dropped cfg oracle now msg mem t _

/-- Helper: dispatch traces are sublists of the canonical order whenever the
    incoming prefix extended by the remaining checkpoints is. -/
theorem afterGates_gates_sub (cfg : BotCfg) (oracle : Collab) (now : Rat)
    (msg : InboundMessage) (mem : ConversationMemory) (t : String) (gs : List Gate)
    (h : (gs ++ [Gate.kindNormalization, Gate.emptyGuard]).Sublist gateOrder) :
    (afterGates cfg oracle now msg mem t gs).gates.Sublist gateOrder := by
  rcases afterGates_gates cfg oracle now msg mem t gs with hg | hg <;> rw [hg]
  · refine List.Sublist.trans ?_ h
    exact List.Sublist.append_left (by decide) gs
  · exact h

/-- Helper: every worker trace follows the canonical gate order. -/
theorem worker_gates_sub (cfg : BotCfg) (oracle : Collab) (now : Rat)
    (ev : InboundEvent) (mem : ConversationMemory) :
    (processMessageWorker cfg oracle now ev mem).gates.Sublist gateOrder := by
  unfold processMessageWorker
  dsimp only
  repeat' split
  all_goals first
    | exact (by decide : ([Gate.staleness] : List Gate).Sublist gateOrder)
    | exact (by decide : ([Gate.staleness, Gate.selfEcho] : List Gate).Sublist gateOrder)
    | exact (by decide :
        ([Gate.staleness, Gate.selfEcho, Gate.mentionGating] : List Gate).Sublist gateOrder)
    | (refine afterGates_gates_sub cfg oracle now ev.message mem _ _ ?_
       decide)

/-- Helper: a dropped event got no reply and left the memory untouched. -/
theorem worker_drop_frame (cfg : BotCfg) (oracle : Collab) (now : Rat)
    (ev : InboundEvent) (mem : ConversationMemory) :
    (processMessageWorker cfg oracle now ev mem).outcome.isDropped = true →
    (processMessageWorker cfg oracle now ev mem).replies = [] ∧
    (processMessageWorker cfg oracle now ev mem).memory = mem := by
  unfold processMessageWorker
  dsimp only
  repeat' split
  all_goals intro hd
  all_goals first
    | exact ⟨rfl, rfl⟩
    | simp [afterGates_outcome_not_dropped] at hd

/-- C2 amended: the gates are applied in the order staleness, self-echo,
    mention gating (group chats only), kind normalization, empty-content
    guard — mention gating BEFORE kind normalization — and the first matching
    gate short-circuits: whenever the outcome is a drop, no reply is sent and
    the conversation memory is untouched. -/
theorem C2_gate_order (cfg : BotCfg) (oracle : Collab) (now : Rat)
    (ev : InboundEvent) (mem : ConversationMemory) :
    (processMessageWorker cfg oracle now ev mem).gates.Sublist gateOrder ∧
    ((processMessageWorker cfg oracle now ev mem).outcome.isDropped = true →
      (processMessageWorker cfg oracle now ev mem).replies = [] ∧
      (processMessageWorker cfg oracle now ev mem).memory = mem) :=
  ⟨worker_gates_sub cfg oracle now ev mem, worker_drop_frame cfg oracle now ev mem⟩

/-- Witness for C2 (amended) at a dropped concrete event. -/
theorem C2_witness :
    (processMessageWorker cfgW oracleW 1000 evPostNoMentionW ConversationMemory.init).gates.Sublist
      gateOrder ∧
    (processMessageWorker cfgW oracleW 1000 evPostNoMentionW ConversationMemory.init).replies = [] ∧
    (processMessageWorker cfgW oracleW 1000 evPostNoMentionW ConversationMemory.init).memory =
      ConversationMemory.init := by
  have h := C2_gate_order cfgW oracleW 1000 evPostNoMentionW ConversationMemory.init
  exact ⟨h.1, (h.2 (by with_unfolding_all decide)).1,
    (h.2 (by with_unfolding_all decide)).2⟩

/-- C6: a direct-chat `post` event whose content is not valid JSON makes the
    uncaught `json.loads` at feishu_ws.py line 269 raise; the worker's first
    except clause then evaluates the unbound `reply_text` and the resulting
    `UnboundLocalError` escapes `_process_message_worker` uncaught, with no
    reply sent and nothing logged (the logging except clause is dead code) —
    the outcome is not one of Discarded / ReplySent / ReplyFailed-logged. -/
theorem C6_exception_escape :
    (processMessageWorker cfgW oracleW 1000 evBadPostW ConversationMemory.init).outcome =
      Outcome.escapedException ∧
    (processMessageWorker cfgW oracleW 1000 evBadPostW ConversationMemory.init).replies = [] := by
  refine ⟨?_, ?_⟩ <;> with_unfolding_all decide

/-- C7 counterexample: the group-chat text `"@_user_1 hi"` with a mention
    targeting the bot is stripped to `"hi"`, whose length is 2 — NOT below the
    empty-content threshold — so the canned greeting is not emitted; the event
    instead routes to the conversational LLM path (the memory records the
    stripped user turn `"hi"`). -/
theorem C7_counterexample :
    (processMessageWorker cfgW oracleW 1000 evHiW ConversationMemory.init).outcome =
      Outcome.llmReplied ∧
    greetingText ∉ (processMessageWorker cfgW oracleW 1000 evHiW ConversationMemory.init).replies ∧
    historyOf (processMessageWorker cfgW oracleW 1000 evHiW ConversationMemory.init).memory
      "chat1" = [⟨"user", "hi"⟩, ⟨"assistant", "LLMREPLY"⟩] := by
  refine ⟨?_, ?_, ?_⟩ <;> with_unfolding_all decide

/-- C7 amended: stripping the bot-targeting mention from `"<mention> hi"`
    leaves `"hi"` of length 2, so the empty-content guard (`< 2`) does not
    fire and the event goes to the LLM path; the guard fires — emitting the
    canned greeting — only when the stripped text is shorter, e.g. for
    `"<mention> h"`. -/
theorem C7_empty_guard_threshold :
    pyStrip (pyReplace "@_user_1 hi" "@_user_1" "") = "hi" ∧
    (pyStrip "hi").length = 2 ∧
    (processMessageWorker cfgW oracleW 1000 evHiW ConversationMemory.init).outcome =
      Outcome.llmReplied ∧
    (processMessageWorker cfgW oracleW 1000 evHW ConversationMemory.init).replies =
      [greetingText] ∧
    (processMessageWorker cfgW oracleW 1000 evHW ConversationMemory.init).outcome =
      Outcome.greetingReplied := by
  refine ⟨?_, ?_, ?_, ?_, ?_⟩ <;> with_unfolding_all decide

/-- C8: a non-stale direct-chat text event carrying exactly `"/ping"` from a
    sender other than the bot is answered with exactly `"Pong! 🏓"` and leaves
    the conversation memory completely unchanged (non-duplicate is implicit:
    duplicates are absorbed in `_handle_message` and never reach the worker). -/
theorem C8_ping_no_memory_mutation (cfg : BotCfg) (oracle : Collab) (now : Rat)
    (t : Int) (sender mid cid : String) (mem : ConversationMemory)
    (hfresh : ¬ (60 : Rat) < now - (t : Rat) / 1000)
    (hself : cfg.botOpenId ≠ some sender) :
    processMessageWorker cfg oracle now (pingEvent t sender mid cid) mem =
      ⟨[pongText], .pongReplied, mem,
        [.staleness, .selfEcho, .kindNormalization, .emptyGuard]⟩ := by
  have hfs : decide ((60 : Rat) < now - (t : Rat) / 1000) = false := by
    simpa using hfresh
  simp only [processMessageWorker, pingEvent, afterGates, afterNorm, hfs,
    contentTextField]
  rw [if_neg (by simp)]
  rw [if_neg hself]
  rw [if_neg (by decide : ¬ ("p2p" = "group"))]
  rw [if_neg (by decide : ¬ ("text" = "image"))]
  rw [if_neg (by decide : ¬ ("text" = "post"))]
  rw [if_neg (by decide :
    ¬ (pyStrip ((some "/ping").getD "") = "" ∨
       (pyStrip (pyStrip ((some "/ping").getD ""))).length < 2))]
  rw [if_neg (by decide : ¬ (pyStartsWith (pyStrip ((some "/ping").getD "")) "/deep" = true))]
  rw [if_pos (by decide : pyStrip ((some "/ping").getD "") = "/ping")]
  rfl

/-- Witness for C8 at a concrete fresh timestamp and sender. -/
theorem C8_witness :
    processMessageWorker cfgW oracleW 1000 (pingEvent 1000000 "alice" "m1" "chat1")
      ConversationMemory.init =
      ⟨[pongText], .pongReplied, ConversationMemory.init,
        [.staleness, .selfEcho, .kindNormalization, .emptyGuard]⟩ := by
  exact C8_ping_no_memory_mutation cfgW oracleW 1000 1000000 "alice" "m1" "chat1"
    ConversationMemory.init (by norm_num) (by decide)

/-- C10: every reply targets the original message id; in a group chat the text
    is prefixed with the at-mention tag of the original sender's open id, and
    in a direct chat it is sent unmodified. -/
theorem C10_reply_addressing (ev : InboundEvent) (text : String) :
    (replyPayload ev text).target_message_id = ev.message.message_id ∧
    (ev.message.chat_type = "group" →
      (replyPayload ev text).text =
        "<at user_id=\"" ++ ev.sender_open_id ++ "\"></at> " ++ text) ∧
    (¬ ev.message.chat_type = "group" → (replyPayload ev text).text = text) := by
  refine ⟨?_, fun h => ?_, fun h => ?_⟩
  · unfold replyPayload
    split <;> rfl
  · simp [replyPayload, h]
  · simp [replyPayload, h]

/-- Witness for C10 in both chat types. -/
theorem C10_witness :
    (replyPayload evHiW "ok").target_message_id = "m2" ∧
    (replyPayload evHiW "ok").text = "<at user_id=\"alice\"></at> ok" ∧
    (replyPayload (pingEvent 0 "alice" "m1" "c1") "ok").text = "ok" := by
  refine ⟨(C10_reply_addressing evHiW "ok").1, ?_, ?_⟩
  · exact (C10_reply_addressing evHiW "ok").2.1 rfl
  · exact (C10_reply_addressing (pingEvent 0 "alice" "m1" "c1") "ok").2.2 (by decide)
